import Mathlib

/-!
Verification of the persistence layer of the adhyatmik-hisab habit tracker
(`src/db/index.ts`, with the import validation from the settings page and the
fixed-id constants from `src/types/index.ts`).

The Dexie/IndexedDB store is shallowly embedded as explicit state:

* each table is a list of records; primary-key ids and `YYYY-MM-DD` date keys
  are strings, as in the source;
* JavaScript `Date` timestamps are modelled as a `Nat` wall clock carried in
  the state (`DB.now`); every operation stamps records with the current clock,
  exactly where the source calls `new Date()` (including the Dexie `creating`
  and `updating` hooks registered in the database constructor);
* `generateId()` (timestamp + random suffix in the source) is modelled as an
  injective fresh-id supply driven by a per-store counter `DB.nextId`; the only
  property of the generator the source relies on is that fresh ids are unique;
* record fields that can be absent on a stored object (pre-migration records,
  optional fields) are `Option`s, with `none` meaning the field is missing;
* each Dexie call runs in its own implicit transaction unless the source wraps
  several calls in `db.transaction`; a function returning
  `Option DbError × DB` models an operation that can throw: on `some error`
  the returned state is the state rolled back to.
-/

/-- The JS union `boolean | string | number` stored in `LogEntry.value`. -/
inductive LogValue
  | bool (b : Bool)
  | str (s : String)
  | num (n : Int)
  deriving DecidableEq, Repr

/-- An untyped settings value (`value: unknown` in the source). -/
inductive SettingVal
  | bool (b : Bool)
  | str (s : String)
  | num (n : Int)
  | null
  deriving DecidableEq, Repr

/-- A `categories` record.  `hisabType` is an `Option` because records written
before schema version 2 lack the field (the v2 upgrade fills it in). -/
structure CategoryRec where
  id : String
  name : String
  nameHindi : Option String
  color : String
  icon : String
  order : Nat
  isFixed : Bool
  hisabType : Option String
  createdAt : Nat
  deriving DecidableEq, Repr

/-- A `habits` record.  `interval` and `reminderEnabled` are `Option`s because
records written before schema version 2 lack them. -/
structure HabitRec where
  id : String
  name : String
  description : Option String
  image : Option String
  categoryId : String
  type : String
  options : Option (List String)
  unit : Option String
  target : Option Int
  interval : Option String
  trackingDay : Option Nat
  trackingDate : Option Nat
  reminderEnabled : Option Bool
  reminderTime : Option String
  order : Nat
  isActive : Bool
  createdAt : Nat
  deriving DecidableEq, Repr

/-- A `logEntries` record. -/
structure LogEntry where
  id : String
  habitId : String
  date : String
  value : LogValue
  note : Option String
  skippedReason : Option String
  createdAt : Nat
  updatedAt : Nat
  deriving DecidableEq, Repr

/-- A `settings` record (`{ key: string; value: unknown }`). -/
structure Setting where
  key : String
  value : SettingVal
  deriving DecidableEq, Repr

/-- The persistent store: the four Dexie tables plus the fresh-id counter and
the wall clock used to model `new Date()`. -/
structure DB where
  categories : List CategoryRec
  habits : List HabitRec
  logEntries : List LogEntry
  settings : List Setting
  nextId : Nat
  now : Nat
  deriving DecidableEq, Repr

/-- Errors thrown by store operations.  `importFailed` models an exception
thrown inside the import transaction (which Dexie rolls back). -/
inductive DbError
  | fixedCategoryProtected
  | transferFormatInvalid
  | importFailed
  deriving DecidableEq, Repr

-- ===========================================================================
-- Constants (src/types/index.ts, src/db/index.ts)
-- ===========================================================================

def SHUBH_HISAB_ID : String := "shubh-hisab"

def ASHUBH_HISAB_ID : String := "ashubh-hisab"

def CURRENT_DB_VERSION : Nat := 2

def CURRENT_APP_VERSION : String := "1.0.0"

/-- `generateId()`: the source concatenates a base-36 timestamp with a random
suffix; its role is to produce an id distinct from every id already in the
store.  Modelled as a counter-indexed supply. -/
def genId (k : Nat) : String := "gen-" ++ toString k

-- ===========================================================================
-- Log entry operations (src/db/index.ts, logHabit / skipHabit / queries)
-- ===========================================================================

/-- The composite-key lookup `where('[habitId+date]').equals([habitId, date]).first()`,
also the query-layer `getLogEntry`. -/
def findEntry (db : DB) (hid d : String) : Option LogEntry :=
  db.logEntries.find? (fun e => e.habitId == hid && e.date == d)

/-- `logHabit(habitId, date, value, note?)`: upsert by `(habitId, date)`.
On update, Dexie's `updating` hook re-stamps `updatedAt`; on create, the
`creating` hook stamps both timestamps. -/
def logHabit (hid d : String) (v : LogValue) (note : Option String) (db : DB) :
    String × DB :=
  match findEntry db hid d with
  | some e =>
    (e.id, { db with
      logEntries := db.logEntries.map (fun x =>
        if x.id == e.id then { x with value := v, note := note, updatedAt := db.now }
        else x) })
  | none =>
    let i := genId db.nextId
    (i, { db with
      logEntries := db.logEntries ++
        [{ id := i, habitId := hid, date := d, value := v, note := note,
           skippedReason := none, createdAt := db.now, updatedAt := db.now }],
      nextId := db.nextId + 1 })

/-- `skipHabit(habitId, date, reason)`: same upsert discipline; an existing
entry gets only `skippedReason` and `updatedAt` modified, a fresh entry is
created with the sentinel `value: false`. -/
def skipHabit (hid d reason : String) (db : DB) : String × DB :=
  match findEntry db hid d with
  | some e =>
    (e.id, { db with
      logEntries := db.logEntries.map (fun x =>
        if x.id == e.id then { x with skippedReason := some reason, updatedAt := db.now }
        else x) })
  | none =>
    let i := genId db.nextId
    (i, { db with
      logEntries := db.logEntries ++
        [{ id := i, habitId := hid, date := d, value := .bool false, note := none,
           skippedReason := some reason, createdAt := db.now, updatedAt := db.now }],
      nextId := db.nextId + 1 })

/-- One call of the logging API. -/
inductive LogOp
  | log (hid d : String) (v : LogValue) (note : Option String)
  | skip (hid d reason : String)
  deriving DecidableEq, Repr

def LogOp.hid : LogOp → String
  | .log h _ _ _ => h
  | .skip h _ _ => h

def LogOp.date : LogOp → String
  | .log _ d _ _ => d
  | .skip _ d _ => d

def applyLogOp : LogOp → DB → String × DB
  | .log h d v n, db => logHabit h d v n db
  | .skip h d r, db => skipHabit h d r db

def applyLogOps (ops : List LogOp) (db : DB) : DB :=
  ops.foldl (fun s op => (applyLogOp op s).2) db

/-- Does `e` have the composite key `(hid, d)`? -/
def keyMatch (hid d : String) (e : LogEntry) : Bool :=
  e.habitId == hid && e.date == d

/-- The `[habitId+date]` unique-index invariant: pairwise distinct composite keys. -/
def keysDistinct : List LogEntry → Bool
  | [] => true
  | e :: es => es.all (fun x => !keyMatch e.habitId e.date x) && keysDistinct es

/-- Code-unit-order `<` on strings, the order IndexedDB keeps its keys in. -/
def charListLt : List Char → List Char → Bool
  | [], [] => false
  | [], _ :: _ => true
  | _ :: _, [] => false
  | a :: as, b :: bs =>
    if a.toNat < b.toNat then true
    else if b.toNat < a.toNat then false
    else charListLt as bs

def strLtB (a b : String) : Bool := charListLt a.data b.data

/-- Code-unit-order `<=` on strings, the comparison IndexedDB applies to the
`date` index keys. -/
def charListLe : List Char → List Char → Bool
  | [], _ => true
  | _ :: _, [] => false
  | a :: as, b :: bs =>
    if a.toNat < b.toNat then true
    else if b.toNat < a.toNat then false
    else charListLe as bs

def dateLeB (a b : String) : Bool := charListLe a.data b.data

/-- `getLogEntriesInRange(startDate, endDate)`:
`where('date').between(startDate, endDate, true, true)`, both bounds
inclusive, comparing date keys as strings. -/

def getLogEntriesInRange (startDate endDate : String) (db : DB) : List LogEntry :=
  db.logEntries.filter (fun e => dateLeB startDate e.date && dateLeB e.date endDate)

-- ===========================================================================
-- Category operations (src/db/index.ts)
-- ===========================================================================

/-- Input to `createCategory` (`Omit<Category, 'id'|'createdAt'|'order'|'isFixed'>`). -/
structure CategoryData where
  name : String
  nameHindi : Option String
  color : String
  icon : String
  hisabType : String
  deriving DecidableEq, Repr

/-- A `Partial<Category>` patch as passed to `updateCategory`.  Every key path
of the record is patchable, the primary key included: Dexie's `update` runs
`modify`, which honors a changed primary key by moving the record (delete at
the old key, add at the new one).  In the list model the move keeps the
record's position — only index traversal order differs, which no theorem here
inspects; a patch colliding with an existing key would throw in IndexedDB and
is not modelled. -/
structure CategoryPatch where
  id : Option String := none
  name : Option String := none
  nameHindi : Option String := none
  color : Option String := none
  icon : Option String := none
  order : Option Nat := none
  isFixed : Option Bool := none
  hisabType : Option String := none
  createdAt : Option Nat := none
  deriving DecidableEq, Repr

def applyCatPatch (p : CategoryPatch) (c : CategoryRec) : CategoryRec :=
  { c with
    id := p.id.getD c.id
    name := p.name.getD c.name
    nameHindi := match p.nameHindi with | some v => some v | none => c.nameHindi
    color := p.color.getD c.color
    icon := p.icon.getD c.icon
    order := p.order.getD c.order
    isFixed := p.isFixed.getD c.isFixed
    hisabType := match p.hisabType with | some v => some v | none => c.hisabType
    createdAt := p.createdAt.getD c.createdAt }

/-- `orderBy('order').last()`: the record greatest in the `order` index,
ties broken by primary key. -/
def lastByOrder (cats : List CategoryRec) : Option CategoryRec :=
  cats.foldl (fun acc c =>
    match acc with
    | none => some c
    | some m => if m.order < c.order || (m.order == c.order && strLtB m.id c.id) then some c else some m)
    none

def createCategory (d : CategoryData) (db : DB) : String × DB :=
  let ord := match lastByOrder db.categories with
    | some m => m.order + 1
    | none => 0
  let i := genId db.nextId
  (i, { db with
    categories := db.categories ++
      [{ id := i, name := d.name, nameHindi := d.nameHindi, color := d.color,
         icon := d.icon, order := ord, isFixed := false,
         hisabType := some d.hisabType, createdAt := db.now }],
    nextId := db.nextId + 1 })

def updateCategory (cid : String) (p : CategoryPatch) (db : DB) : DB :=
  { db with
    categories := db.categories.map (fun c => if c.id == cid then applyCatPatch p c else c) }

/-- The habit-reassignment write of `deleteCategory`
(`db.habits.where('categoryId').equals(id).modify({categoryId: SHUBH_HISAB_ID})`),
one implicit transaction. -/
def reassignHabits (cid : String) (db : DB) : DB :=
  { db with
    habits := db.habits.map (fun h =>
      if h.categoryId == cid then { h with categoryId := SHUBH_HISAB_ID } else h) }

/-- The category-delete write of `deleteCategory` (`db.categories.delete(id)`),
a second implicit transaction. -/
def removeCategory (cid : String) (db : DB) : DB :=
  { db with categories := db.categories.filter (fun c => !(c.id == cid)) }

/-- `deleteCategory(id)`: refuses fixed categories, otherwise reassigns the
category's habits to Shubh Hisab and deletes the category.  The two writes are
separate awaited calls, not wrapped in `db.transaction`. -/
def deleteCategory (cid : String) (db : DB) : Option DbError × DB :=
  match db.categories.find? (fun c => c.id == cid) with
  | some c =>
    if c.isFixed then (some .fixedCategoryProtected, db)
    else (none, removeCategory cid (reassignHabits cid db))
  | none => (none, removeCategory cid (reassignHabits cid db))

/-- The sequence of committed states a concurrent reader can observe while
`deleteCategory` runs: the source issues the habit reassignment and the
category delete as two separate implicit transactions, so the state after the
first commit is observable. -/
def deleteCategoryStates (cid : String) (db : DB) : List DB :=
  match db.categories.find? (fun c => c.id == cid) with
  | some c =>
    if c.isFixed then []
    else [reassignHabits cid db, removeCategory cid (reassignHabits cid db)]
  | none => [reassignHabits cid db, removeCategory cid (reassignHabits cid db)]

def setCatOrder (cid : String) (ord : Nat) (cats : List CategoryRec) : List CategoryRec :=
  cats.map (fun c => if c.id == cid then { c with order := ord } else c)

/-- `reorderCategories(orderedIds)`: `order := index` for each listed id,
inside one transaction. -/
def reorderCategories (ids : List String) (db : DB) : DB :=
  { db with
    categories := ids.enum.foldl (fun acc p => setCatOrder p.2 p.1 acc) db.categories }

/-- One call of the category API. -/
inductive CatOp
  | create (d : CategoryData)
  | update (cid : String) (p : CategoryPatch)
  | delete (cid : String)
  | reorder (ids : List String)
  deriving DecidableEq, Repr

def applyCatOp : CatOp → DB → DB
  | .create d, db => (createCategory d db).2
  | .update cid p, db => updateCategory cid p db
  | .delete cid, db => (deleteCategory cid db).2
  | .reorder ids, db => reorderCategories ids db

def applyCatOps (ops : List CatOp) (db : DB) : DB :=
  ops.foldl (fun s op => applyCatOp op s) db

-- ===========================================================================
-- Habit operations (src/db/index.ts)
-- ===========================================================================

/-- Input to `createHabit` (`Omit<Habit, 'id'|'createdAt'|'order'|'isActive'>`). -/
structure HabitData where
  name : String
  description : Option String := none
  image : Option String := none
  categoryId : String
  type : String
  options : Option (List String) := none
  unit : Option String := none
  target : Option Int := none
  interval : String
  trackingDay : Option Nat := none
  trackingDate : Option Nat := none
  reminderEnabled : Bool := false
  reminderTime : Option String := none
  deriving DecidableEq, Repr

/-- `db.habits.where('categoryId').equals(c).filter(h => h.isActive === true).last()`:
the `categoryId` index orders equal keys by primary key, so `last()` yields the
active habit of the category with the greatest id — not the greatest `order`. -/
def lastActiveByPrimaryKey (db : DB) (cid : String) : Option HabitRec :=
  (db.habits.filter (fun h => h.categoryId == cid && h.isActive)).foldl
    (fun acc h =>
      match acc with
      | none => some h
      | some m => if strLtB m.id h.id then some h else some m)
    none

def createHabit (d : HabitData) (db : DB) : String × DB :=
  let ord := match lastActiveByPrimaryKey db d.categoryId with
    | some m => m.order + 1
    | none => 0
  let i := genId db.nextId
  (i, { db with
    habits := db.habits ++
      [{ id := i, name := d.name, description := d.description, image := d.image,
         categoryId := d.categoryId, type := d.type, options := d.options,
         unit := d.unit, target := d.target, interval := some d.interval,
         trackingDay := d.trackingDay, trackingDate := d.trackingDate,
         reminderEnabled := some d.reminderEnabled, reminderTime := d.reminderTime,
         order := ord, isActive := true, createdAt := db.now }],
    nextId := db.nextId + 1 })

def setHabitOrder (hid : String) (ord : Nat) (hs : List HabitRec) : List HabitRec :=
  hs.map (fun h => if h.id == hid then { h with order := ord } else h)

/-- `reorderHabits(_categoryId, orderedIds)`: `order := index` for each listed
id, inside one transaction. -/
def reorderHabits (ids : List String) (db : DB) : DB :=
  { db with habits := ids.enum.foldl (fun acc p => setHabitOrder p.2 p.1 acc) db.habits }

/-- What the spec says `createHabit` should use: the maximum `order` among the
active habits of the category (written from the spec's words, for comparison
with `lastActiveByPrimaryKey`). -/
def specMaxActiveOrder (db : DB) (cid : String) : Option Nat :=
  (db.habits.filter (fun h => h.categoryId == cid && h.isActive)).foldl
    (fun acc h =>
      match acc with
      | none => some h.order
      | some m => some (max m h.order))
    none

-- ===========================================================================
-- Seeding, hooks-aware puts, export / import (src/db/index.ts)
-- ===========================================================================

/-- `Table.put` for categories: replace the record with the same primary key,
else insert; on insert the `creating` hook stamps `createdAt := now`. -/
def putCategory (now : Nat) (tbl : List CategoryRec) (c : CategoryRec) : List CategoryRec :=
  if tbl.any (fun x => x.id == c.id) then
    tbl.map (fun x => if x.id == c.id then c else x)
  else
    tbl ++ [{ c with createdAt := now }]

/-- `Table.put` for habits: the `creating` hook stamps `createdAt := now` on insert. -/
def putHabit (now : Nat) (tbl : List HabitRec) (h : HabitRec) : List HabitRec :=
  if tbl.any (fun x => x.id == h.id) then
    tbl.map (fun x => if x.id == h.id then h else x)
  else
    tbl ++ [{ h with createdAt := now }]

/-- `Table.put` for log entries: the `creating` hook stamps both timestamps on
insert; the `updating` hook re-stamps `updatedAt` on overwrite. -/
def putLogEntry (now : Nat) (tbl : List LogEntry) (e : LogEntry) : List LogEntry :=
  if tbl.any (fun x => x.id == e.id) then
    tbl.map (fun x => if x.id == e.id then { e with updatedAt := now } else x)
  else
    tbl ++ [{ e with createdAt := now, updatedAt := now }]

/-- `Table.put` for settings (keyed by `key`, no hooks). -/
def putSetting (tbl : List Setting) (s : Setting) : List Setting :=
  if tbl.any (fun x => x.key == s.key) then
    tbl.map (fun x => if x.key == s.key then s else x)
  else
    tbl ++ [s]

/-- The Shubh Hisab seed record (`seedDefaultCategories`). -/
def shubhSeed (now : Nat) : CategoryRec :=
  { id := SHUBH_HISAB_ID, name := "Shubh Hisab", nameHindi := some "शुभ हिसाब",
    color := "#3A9173", icon := "🙏", order := 0, isFixed := true,
    hisabType := some "shubh", createdAt := now }

/-- The Ashubh Hisab seed record (`seedDefaultCategories`). -/
def ashubhSeed (now : Nat) : CategoryRec :=
  { id := ASHUBH_HISAB_ID, name := "Ashubh Hisab", nameHindi := some "अशुभ हिसाब",
    color := "#DC2626", icon := "⚠️", order := 1, isFixed := true,
    hisabType := some "ashubh", createdAt := now }

/-- `seedDefaultCategories()`: if both fixed categories exist the function
returns immediately; otherwise, in one transaction, each missing fixed
category is `put` and `hasSeededCategories` is set. -/
def seedDefaultCategories (db : DB) : DB :=
  let shubhExists := (db.categories.find? (fun c => c.id == SHUBH_HISAB_ID)).isSome
  let ashubhExists := (db.categories.find? (fun c => c.id == ASHUBH_HISAB_ID)).isSome
  if shubhExists && ashubhExists then db
  else
    let cats1 := if shubhExists then db.categories else putCategory db.now db.categories (shubhSeed db.now)
    let cats2 := if ashubhExists then cats1 else putCategory db.now cats1 (ashubhSeed db.now)
    { db with
      categories := cats2
      settings := putSetting db.settings { key := "hasSeededCategories", value := .bool true } }

/-- The `ExportData` snapshot.  Every field is an `Option` so that a snapshot
missing a required top-level field can be expressed (`none` = field absent in
the parsed JSON). -/
structure ExportData where
  version : Option String
  schemaVersion : Option Nat
  exportedAt : Option Nat
  categories : Option (List CategoryRec)
  habits : Option (List HabitRec)
  logEntries : Option (List LogEntry)
  settings : Option (List Setting)
  deriving DecidableEq, Repr

/-- `exportAllData()`: a complete point-in-time copy of all four tables plus
version metadata and the export timestamp. -/
def exportAllData (db : DB) : ExportData :=
  { version := some CURRENT_APP_VERSION
    schemaVersion := some CURRENT_DB_VERSION
    exportedAt := some db.now
    categories := some db.categories
    habits := some db.habits
    logEntries := some db.logEntries
    settings := some db.settings }

/-- `importAllData(data)`: one read-write transaction that clears all four
tables, `bulkPut`s the snapshot's records (through the timestamp hooks), and
re-runs `seedDefaultCategories`.  The snapshot's records are loaded as they
are: no schema-upgrade transform is applied to them (the `version(2).upgrade`
callback only runs when Dexie opens a database whose persisted version is
older, never during `bulkPut`), even though the source logs a warning claiming
older data "will be migrated automatically during import".  A missing record
array makes `bulkPut` throw inside the transaction, which rolls back. -/
def importAllData (data : ExportData) (db : DB) : Option DbError × DB :=
  match data.categories, data.habits, data.logEntries, data.settings with
  | some cs, some hs, some ls, some ss =>
    let loaded : DB :=
      { db with
        categories := cs.foldl (putCategory db.now) []
        habits := hs.foldl (putHabit db.now) []
        logEntries := ls.foldl (putLogEntry db.now) []
        settings := ss.foldl putSetting [] }
    (none, seedDefaultCategories loaded)
  | _, _, _, _ => (some .importFailed, db)

/-- The validation the settings page runs on a parsed backup file before
calling `importAllData`:
`if (!data.version || !data.categories || !data.habits) throw ...` — JS
falsiness, so a missing or empty `version` and a missing `categories` or
`habits` array are rejected; no other field is checked. -/
def checkImportFile (data : ExportData) : Bool :=
  (match data.version with
   | some v => !(v == "")
   | none => false)
  && data.categories.isSome && data.habits.isSome

/-- The full import pipeline: validation, then the import transaction.  On
`some error` the returned state is unchanged. -/
def importSnapshotChecked (data : ExportData) (db : DB) : Option DbError × DB :=
  if checkImportFile data then importAllData data db
  else (some .transferFormatInvalid, db)

-- ===========================================================================
-- Schema registry v2 upgrade (AdhyatmikDatabase.version(2).upgrade)
-- ===========================================================================

/-- The v1 → v2 category transform: default a missing `hisabType` to `"shubh"`. -/
def upgradeCategoryV2 (c : CategoryRec) : CategoryRec :=
  if c.hisabType.isNone then { c with hisabType := some "shubh" } else c

/-- The v1 → v2 habit transform: default a missing `interval` to `"daily"` and
a missing `reminderEnabled` to `false`; the optional tracking and reminder-time
fields are set to `undefined` when absent, which leaves the record unchanged. -/
def upgradeHabitV2 (h : HabitRec) : HabitRec :=
  let h1 := if h.interval.isNone then { h with interval := some "daily" } else h
  if h1.reminderEnabled.isNone then { h1 with reminderEnabled := some false } else h1

/-- Opening a pre-v2 store against the version-2 registry: the upgrade
transform runs once over every record of the affected tables. -/
def openV2 (db : DB) : DB :=
  { db with
    categories := db.categories.map upgradeCategoryV2
    habits := db.habits.map upgradeHabitV2 }

-- ===========================================================================
-- Invariants
-- ===========================================================================

/-- A freshly created store: empty tables, clock and id counter at zero. -/
def emptyDB : DB :=
  { categories := [], habits := [], logEntries := [], settings := [],
    nextId := 0, now := 0 }

/-- Is `c` the Shubh Hisab fixed category record? -/
def isShubhFixed (c : CategoryRec) : Bool :=
  c.id == SHUBH_HISAB_ID && c.isFixed && c.hisabType == some "shubh"

/-- Is `c` the Ashubh Hisab fixed category record? -/
def isAshubhFixed (c : CategoryRec) : Bool :=
  c.id == ASHUBH_HISAB_ID && c.isFixed && c.hisabType == some "ashubh"

/-- The fixed-category invariant on the `categories` table: exactly two
records carry `isFixed = true`; one is the Shubh record and one the Ashubh
record (reserved id, matching group tag); every record carrying a reserved id
is the corresponding fixed record. -/
def fixedCatsOkL (cats : List CategoryRec) : Bool :=
  ((cats.filter (fun c => c.isFixed)).length == 2)
  && cats.any isShubhFixed && cats.any isAshubhFixed
  && cats.all (fun c => !c.isFixed || (c.id == SHUBH_HISAB_ID || c.id == ASHUBH_HISAB_ID))
  && cats.all (fun c => !(c.id == SHUBH_HISAB_ID) || isShubhFixed c)
  && cats.all (fun c => !(c.id == ASHUBH_HISAB_ID) || isAshubhFixed c)

def fixedCatsOk (db : DB) : Bool := fixedCatsOkL db.categories

/-- A category call that does not patch `id`, `isFixed` or `hisabType` through
`updateCategory`. -/
def catOpSafe : CatOp → Bool
  | .update _ p => p.id == none && p.isFixed == none && p.hisabType == none
  | _ => true

-- ===========================================================================
-- Concrete instances used by witnesses and counterexamples
-- ===========================================================================

/-- The store right after first open of a fresh install: both fixed categories
seeded. -/
def seededDB : DB := seedDefaultCategories emptyDB

def sampleLogOps : List LogOp :=
  [ .log "h1" "2026-01-05" (.bool true) none,
    .skip "h1" "2026-01-06" "travel",
    .log "h1" "2026-01-05" (.bool false) (some "late"),
    .log "h2" "2026-01-05" (.num 108) none ]

/-- A log entry created at clock 3. -/
def sampleEntry : LogEntry :=
  { id := "gen-0", habitId := "h1", date := "2026-01-05", value := .bool true,
    note := some "first", skippedReason := none, createdAt := 3, updatedAt := 3 }

/-- A store holding `sampleEntry`, observed later (clock 7). -/
def dbWithEntry : DB :=
  { categories := [], habits := [], logEntries := [sampleEntry], settings := [],
    nextId := 1, now := 7 }

def entryJan10 : LogEntry :=
  { id := "gen-1", habitId := "h1", date := "2026-01-10", value := .num 30,
    note := none, skippedReason := none, createdAt := 4, updatedAt := 4 }

def entryFeb02 : LogEntry :=
  { id := "gen-2", habitId := "h2", date := "2026-02-02", value := .bool true,
    note := none, skippedReason := none, createdAt := 5, updatedAt := 5 }

def mkLogDB (l : List LogEntry) : DB :=
  { categories := [], habits := [], logEntries := l, settings := [], nextId := 9, now := 9 }

/-- `createHabit` input for a daily count habit in Shubh Hisab. -/
def habitDataA : HabitData :=
  { name := "Mala", categoryId := SHUBH_HISAB_ID, type := "count", interval := "daily" }

/-- `createHabit` input for a daily boolean habit in Shubh Hisab. -/
def habitDataB : HabitData :=
  { name := "Darshan", categoryId := SHUBH_HISAB_ID, type := "boolean", interval := "daily" }

/-- A reachable store: seed, create two habits in Shubh Hisab, then swap their
display order with `reorderHabits`.  The habit with the larger primary key
(`gen-1`) now has order 0 while `gen-0` has order 1. -/
def dbReordered : DB :=
  reorderHabits ["gen-1", "gen-0"]
    (createHabit habitDataB (createHabit habitDataA seededDB).2).2

/-- A v1 habit record lacking `interval` (and the other v2 fields). -/
def oldHabit : HabitRec :=
  { id := "old-1", name := "Seva", description := none, image := none,
    categoryId := SHUBH_HISAB_ID, type := "boolean", options := none, unit := none,
    target := none, interval := none, trackingDay := none, trackingDate := none,
    reminderEnabled := none, reminderTime := none, order := 0, isActive := true,
    createdAt := 1 }

/-- A snapshot exported by a schema-v1 build: `oldHabit` has no `interval`. -/
def snapV1 : ExportData :=
  { version := some "0.9.0", schemaVersion := some 1, exportedAt := some 2,
    categories := some [shubhSeed 1, ashubhSeed 1], habits := some [oldHabit],
    logEntries := some [], settings := some [] }

/-- A current-version store whose log entry was created at clock 0, observed
at clock 5. -/
def entryClockZero : LogEntry :=
  { id := "gen-0", habitId := "h1", date := "2026-01-05", value := .bool true,
    note := none, skippedReason := none, createdAt := 0, updatedAt := 0 }

def seededFlag : Setting := { key := "hasSeededCategories", value := .bool true }

def dbRound : DB :=
  { categories := [shubhSeed 0, ashubhSeed 0], habits := [],
    logEntries := [entryClockZero], settings := [seededFlag],
    nextId := 1, now := 5 }

/-- A snapshot with every top-level field except `exportedAt`. -/
def snapNoExportedAt : ExportData :=
  { version := some "1.0.0", schemaVersion := some 2, exportedAt := none,
    categories := some [shubhSeed 0, ashubhSeed 0], habits := some [],
    logEntries := some [], settings := some [] }

/-- A snapshot missing the `categories` array. -/
def snapNoCategories : ExportData :=
  { version := some "1.0.0", schemaVersion := some 2, exportedAt := some 4,
    categories := none, habits := some [], logEntries := some [], settings := some [] }

/-- A user (non-fixed) category. -/
def userCat : CategoryRec :=
  { id := "cat-1", name := "Vrat", nameHindi := none, color := "#112233",
    icon := "V", order := 2, isFixed := false, hisabType := some "shubh", createdAt := 2 }

/-- A habit owned by `userCat`. -/
def habitInUserCat : HabitRec :=
  { id := "gen-0", name := "Fast", description := none, image := none,
    categoryId := "cat-1", type := "boolean", options := none, unit := none,
    target := none, interval := some "daily", trackingDay := none, trackingDate := none,
    reminderEnabled := some false, reminderTime := none, order := 0, isActive := true,
    createdAt := 2 }

/-- A seeded store with one user category owning one habit. -/
def dbWithUserCat : DB :=
  { categories := [shubhSeed 0, ashubhSeed 0, userCat], habits := [habitInUserCat],
    logEntries := [], settings := [seededFlag], nextId := 1, now := 6 }

def tapasyaData : CategoryData :=
  { name := "Tapasya", nameHindi := none, color := "#445566", icon := "T",
    hisabType := "shubh" }

def sampleCatOps : List CatOp :=
  [ .create tapasyaData,
    .update "gen-0" { name := some "Tapasya III" },
    .reorder ["gen-0", SHUBH_HISAB_ID, ASHUBH_HISAB_ID],
    .delete "gen-0" ]

/-- A pre-v2 store holding `oldHabit`. -/
def dbV1 : DB :=
  { categories := [], habits := [oldHabit], logEntries := [], settings := [],
    nextId := 0, now := 3 }

-- ===========================================================================
-- Helper lemmas
-- ===========================================================================

theorem find?_map_pres {α : Type} (f : α → α) (p : α → Bool)
    (hf : ∀ x, p (f x) = p x) (l : List α) :
    (l.map f).find? p = Option.map f (l.find? p) := by
  induction l with
  | nil => rfl
  | cons a l ih =>
    by_cases hpa : p a
    · simp [List.find?_cons, hf, hpa]
    · simp [List.find?_cons, hf, hpa, ih]

theorem beq_swap (a b : String) : (a == b) = (b == a) := by
  by_cases h : a = b
  · subst h; rfl
  · rw [beq_eq_false_iff_ne.mpr h, beq_eq_false_iff_ne.mpr (Ne.symm h)]

theorem keyMatch_swap (a e : LogEntry) :
    keyMatch e.habitId e.date a = keyMatch a.habitId a.date e := by
  simp only [keyMatch]
  rw [beq_swap a.habitId, beq_swap a.date]

theorem keysDistinct_map (f : LogEntry → LogEntry)
    (hh : ∀ x, (f x).habitId = x.habitId) (hd : ∀ x, (f x).date = x.date)
    (l : List LogEntry) :
    keysDistinct (l.map f) = keysDistinct l := by
  induction l with
  | nil => rfl
  | cons e es ih =>
    simp only [List.map_cons, keysDistinct, List.all_map, Function.comp_def, ih]
    congr 1
    have hfun : (fun x => !keyMatch (f e).habitId (f e).date (f x))
        = (fun x => !keyMatch e.habitId e.date x) := by
      funext x
      simp [keyMatch, hh, hd]
    rw [hfun]

theorem keysDistinct_append_one (l : List LogEntry) (a : LogEntry)
    (hl : keysDistinct l = true) (ha : ∀ e ∈ l, keyMatch a.habitId a.date e = false) :
    keysDistinct (l ++ [a]) = true := by
  induction l with
  | nil => simp [keysDistinct]
  | cons e es ih =>
    simp only [keysDistinct, Bool.and_eq_true, List.all_eq_true] at hl
    simp only [List.cons_append, keysDistinct, Bool.and_eq_true, List.all_eq_true]
    constructor
    · intro x hx
      rcases List.mem_append.mp hx with hx | hx
      · exact hl.1 x hx
      · have hxa : x = a := by simpa using hx
        subst hxa
        have hea := ha e (List.mem_cons_self e es)
        rw [keyMatch_swap] at hea
        simp [hea]
    · exact ih hl.2 (fun x hx => ha x (List.mem_cons_of_mem e hx))

theorem keysDistinct_count (hid d : String) (l : List LogEntry)
    (hl : keysDistinct l = true) : (l.filter (keyMatch hid d)).length ≤ 1 := by
  induction l with
  | nil => simp
  | cons e es ih =>
    simp only [keysDistinct, Bool.and_eq_true, List.all_eq_true] at hl
    by_cases he : keyMatch hid d e
    · have hnil : es.filter (keyMatch hid d) = [] := by
        rw [List.filter_eq_nil_iff]
        intro x hx hk
        have h1 := hl.1 x hx
        obtain ⟨he1, he2⟩ : e.habitId = hid ∧ e.date = d := by
          simpa [keyMatch, Bool.and_eq_true, beq_iff_eq] using he
        rw [he1, he2] at h1
        simp [hk] at h1
      simp [List.filter_cons_of_pos, he, hnil]
    · have he' : keyMatch hid d e = false := by simpa using he
      rw [List.filter_cons_of_neg (by simp [he'])]
      exact ih hl.2

theorem keysDistinct_applyLogOp (op : LogOp) (db : DB)
    (h : keysDistinct db.logEntries = true) :
    keysDistinct (applyLogOp op db).2.logEntries = true := by
  have key : ∀ (hid d : String) (entries : List LogEntry) (patch : LogEntry → LogEntry)
      (hph : ∀ x, (patch x).habitId = x.habitId) (hpd : ∀ x, (patch x).date = x.date),
      keysDistinct entries = true →
      ∀ eid, keysDistinct (entries.map (fun x => if x.id == eid then patch x else x)) = true := by
    intro hid d entries patch hph hpd hk eid
    rw [keysDistinct_map]
    · exact hk
    · intro x; by_cases hx : x.id == eid <;> simp [hx, hph]
    · intro x; by_cases hx : x.id == eid <;> simp [hx, hpd]
  cases op with
  | log hid d v n =>
    simp only [applyLogOp, logHabit]
    cases hfind : findEntry db hid d with
    | some e =>
      exact key hid d db.logEntries _ (fun x => by by_cases hx : x.id == e.id <;> simp [hx])
        (fun x => by by_cases hx : x.id == e.id <;> simp [hx]) h e.id
    | none =>
      apply keysDistinct_append_one _ _ h
      intro x hx
      have := List.find?_eq_none.mp hfind x hx
      simpa [keyMatch] using this
  | skip hid d r =>
    simp only [applyLogOp, skipHabit]
    cases hfind : findEntry db hid d with
    | some e =>
      exact key hid d db.logEntries _ (fun x => by by_cases hx : x.id == e.id <;> simp [hx])
        (fun x => by by_cases hx : x.id == e.id <;> simp [hx]) h e.id
    | none =>
      apply keysDistinct_append_one _ _ h
      intro x hx
      have := List.find?_eq_none.mp hfind x hx
      simpa [keyMatch] using this

theorem keysDistinct_applyLogOps (ops : List LogOp) (db : DB)
    (h : keysDistinct db.logEntries = true) :
    keysDistinct (applyLogOps ops db).logEntries = true := by
  induction ops generalizing db with
  | nil => exact h
  | cons op ops ih =>
    simp only [applyLogOps, List.foldl_cons]
    exact ih _ (keysDistinct_applyLogOp op db h)

theorem findEntry_after_applyLogOp (op : LogOp) (db : DB) :
    ∃ e, findEntry (applyLogOp op db).2 op.hid op.date = some e ∧
      e.id = (applyLogOp op db).1 := by
  cases op with
  | log hid d v n =>
    cases hfind : findEntry db hid d with
    | some e =>
      have hfind' : List.find? (fun x => x.habitId == hid && x.date == d) db.logEntries
          = some e := hfind
      refine ⟨{ e with value := v, note := n, updatedAt := db.now }, ?_, ?_⟩
      · simp only [applyLogOp, LogOp.hid, LogOp.date, logHabit, findEntry, hfind']
        rw [find?_map_pres]
        · rw [hfind']
          simp
        · intro x; by_cases hx : x.id == e.id <;> simp [hx]
      · simp [applyLogOp, logHabit, findEntry, hfind']
    | none =>
      have hfind' : List.find? (fun x => x.habitId == hid && x.date == d) db.logEntries
          = none := hfind
      refine ⟨⟨genId db.nextId, hid, d, v, n, none, db.now, db.now⟩, ?_, ?_⟩
      · simp only [applyLogOp, LogOp.hid, LogOp.date, logHabit, findEntry, hfind',
          List.find?_append]
        simp
      · simp [applyLogOp, logHabit, findEntry, hfind']
  | skip hid d r =>
    cases hfind : findEntry db hid d with
    | some e =>
      have hfind' : List.find? (fun x => x.habitId == hid && x.date == d) db.logEntries
          = some e := hfind
      refine ⟨{ e with skippedReason := some r, updatedAt := db.now }, ?_, ?_⟩
      · simp only [applyLogOp, LogOp.hid, LogOp.date, skipHabit, findEntry, hfind']
        rw [find?_map_pres]
        · rw [hfind']
          simp
        · intro x; by_cases hx : x.id == e.id <;> simp [hx]
      · simp [applyLogOp, skipHabit, findEntry, hfind']
    | none =>
      have hfind' : List.find? (fun x => x.habitId == hid && x.date == d) db.logEntries
          = none := hfind
      refine ⟨⟨genId db.nextId, hid, d, .bool false, none, some r, db.now, db.now⟩, ?_, ?_⟩
      · simp only [applyLogOp, LogOp.hid, LogOp.date, skipHabit, findEntry, hfind',
          List.find?_append]
        simp
      · simp [applyLogOp, skipHabit, findEntry, hfind']

theorem applyLogOp_ret_of_found (op : LogOp) (db : DB) (e : LogEntry)
    (h : findEntry db op.hid op.date = some e) :
    (applyLogOp op db).1 = e.id := by
  cases op with
  | log hid d v n =>
    simp only [LogOp.hid, LogOp.date] at h
    simp [applyLogOp, logHabit, h]
  | skip hid d r =>
    simp only [LogOp.hid, LogOp.date] at h
    simp [applyLogOp, skipHabit, h]

-- ===========================================================================
-- Claims
-- ===========================================================================

/-- C1: after any sequence of `logHabit`/`skipHabit` calls on a store whose
log table satisfies the `[habitId+date]` uniqueness invariant, every
`(habitId, date)` pair still has at most one `LogEntry`, and two further calls
with the same pair (in either API) return the same identifier: the upsert
updates the existing entry in place and never inserts a duplicate. -/
theorem logHabit_upsert_unique_and_stable (ops : List LogOp) (db : DB)
    (hinv : keysDistinct db.logEntries = true) :
    keysDistinct (applyLogOps ops db).logEntries = true ∧
    (∀ hid d, (((applyLogOps ops db).logEntries).filter (keyMatch hid d)).length ≤ 1) ∧
    (∀ op1 op2 : LogOp, op1.hid = op2.hid → op1.date = op2.date →
      (applyLogOp op2 (applyLogOp op1 (applyLogOps ops db)).2).1
        = (applyLogOp op1 (applyLogOps ops db)).1) := by
  have hpres := keysDistinct_applyLogOps ops db hinv
  refine ⟨hpres, ?_, ?_⟩
  · intro hid d
    exact keysDistinct_count hid d _ hpres
  · intro op1 op2 hh hd
    obtain ⟨e, hfind, hide⟩ := findEntry_after_applyLogOp op1 (applyLogOps ops db)
    rw [hh, hd] at hfind
    rw [applyLogOp_ret_of_found op2 _ e hfind, hide]

theorem logHabit_upsert_unique_and_stable_witness :
    keysDistinct emptyDB.logEntries = true ∧
    (keysDistinct (applyLogOps sampleLogOps emptyDB).logEntries = true ∧
      (∀ hid d, (((applyLogOps sampleLogOps emptyDB).logEntries).filter (keyMatch hid d)).length ≤ 1) ∧
      (∀ op1 op2 : LogOp, op1.hid = op2.hid → op1.date = op2.date →
        (applyLogOp op2 (applyLogOp op1 (applyLogOps sampleLogOps emptyDB)).2).1
          = (applyLogOp op1 (applyLogOps sampleLogOps emptyDB)).1)) :=
  ⟨by decide, logHabit_upsert_unique_and_stable sampleLogOps emptyDB (by decide)⟩

/-- C9: `getLogEntriesInRange(a, b)` returns exactly the stored entries whose
date key lies in the inclusive range `a <= date <= b`, and the returned
collection is insertion-order independent: permuting the stored table permutes
the result. -/
theorem getLogEntriesInRange_correct (l1 l2 : List LogEntry) (a b : String)
    (hab : dateLeB a b = true) (hperm : l1.Perm l2) :
    (∀ e, e ∈ getLogEntriesInRange a b (mkLogDB l1) ↔
      e ∈ l1 ∧ (dateLeB a e.date && dateLeB e.date b) = true) ∧
    (getLogEntriesInRange a b (mkLogDB l1)).Perm (getLogEntriesInRange a b (mkLogDB l2)) := by
  constructor
  · intro e
    simp [getLogEntriesInRange, mkLogDB, List.mem_filter]
  · exact List.Perm.filter _ hperm

theorem getLogEntriesInRange_correct_witness :
    dateLeB "2026-01-01" "2026-01-31" = true ∧
    ([sampleEntry, entryJan10, entryFeb02].Perm [entryFeb02, sampleEntry, entryJan10]) ∧
    ((∀ e, e ∈ getLogEntriesInRange "2026-01-01" "2026-01-31"
        (mkLogDB [sampleEntry, entryJan10, entryFeb02]) ↔
      e ∈ [sampleEntry, entryJan10, entryFeb02] ∧
        (dateLeB "2026-01-01" e.date && dateLeB e.date "2026-01-31") = true) ∧
    (getLogEntriesInRange "2026-01-01" "2026-01-31"
        (mkLogDB [sampleEntry, entryJan10, entryFeb02])).Perm
      (getLogEntriesInRange "2026-01-01" "2026-01-31"
        (mkLogDB [entryFeb02, sampleEntry, entryJan10]))) :=
  ⟨by decide, by decide,
    getLogEntriesInRange_correct [sampleEntry, entryJan10, entryFeb02]
      [entryFeb02, sampleEntry, entryJan10] "2026-01-01" "2026-01-31"
      (by decide) (by decide)⟩

/-- C10: when an entry for `(habitId, date)` already exists, `skipHabit`
returns that entry's identifier and rewrites the table pointwise, changing
only `skippedReason` and `updatedAt` of the matching record: its identifier,
`createdAt`, previously logged `value` and `note` stay as they were (the
record-update expression touches no other field), no record is added or
removed, and records with a different identifier are untouched.  The sentinel
`value: false` is written only on the creation branch, which is not taken
here. -/
theorem skipHabit_existing_updates_in_place (db : DB) (hid d reason : String) (e : LogEntry)
    (hfind : findEntry db hid d = some e) :
    (skipHabit hid d reason db).1 = e.id ∧
    (skipHabit hid d reason db).2.logEntries
      = db.logEntries.map (fun x =>
          if x.id == e.id then { x with skippedReason := some reason, updatedAt := db.now }
          else x) ∧
    findEntry (skipHabit hid d reason db).2 hid d
      = some { e with skippedReason := some reason, updatedAt := db.now } ∧
    (skipHabit hid d reason db).2.logEntries.length = db.logEntries.length ∧
    (∀ x ∈ db.logEntries, (x.id == e.id) = false →
      x ∈ (skipHabit hid d reason db).2.logEntries) := by
  have hfind' : List.find? (fun x => x.habitId == hid && x.date == d) db.logEntries
      = some e := hfind
  refine ⟨?_, ?_, ?_, ?_, ?_⟩
  · simp [skipHabit, findEntry, hfind']
  · simp [skipHabit, findEntry, hfind']
  · simp only [skipHabit, findEntry, hfind']
    rw [find?_map_pres]
    · rw [hfind']; simp
    · intro x; by_cases hx : x.id == e.id <;> simp [hx]
  · simp [skipHabit, findEntry, hfind']
  · intro x hx hne
    have hfx : (fun y => if y.id == e.id
        then { y with skippedReason := some reason, updatedAt := db.now } else y) x = x := by
      simp [hne]
    have hm := List.mem_map_of_mem (fun y => if y.id == e.id
        then { y with skippedReason := some reason, updatedAt := db.now } else y) hx
    rw [hfx] at hm
    simpa [skipHabit, findEntry, hfind'] using hm

theorem skipHabit_existing_updates_in_place_witness :
    findEntry dbWithEntry "h1" "2026-01-05" = some sampleEntry ∧
    ((skipHabit "h1" "2026-01-05" "travel" dbWithEntry).1 = sampleEntry.id ∧
    (skipHabit "h1" "2026-01-05" "travel" dbWithEntry).2.logEntries
      = dbWithEntry.logEntries.map (fun x =>
          if x.id == sampleEntry.id
          then { x with skippedReason := some "travel", updatedAt := dbWithEntry.now }
          else x) ∧
    findEntry (skipHabit "h1" "2026-01-05" "travel" dbWithEntry).2 "h1" "2026-01-05"
      = some { sampleEntry with skippedReason := some "travel", updatedAt := dbWithEntry.now } ∧
    (skipHabit "h1" "2026-01-05" "travel" dbWithEntry).2.logEntries.length
      = dbWithEntry.logEntries.length ∧
    (∀ x ∈ dbWithEntry.logEntries, (x.id == sampleEntry.id) = false →
      x ∈ (skipHabit "h1" "2026-01-05" "travel" dbWithEntry).2.logEntries)) :=
  ⟨by decide,
    skipHabit_existing_updates_in_place dbWithEntry "h1" "2026-01-05" "travel" sampleEntry
      (by decide)⟩

/-- C7: opening a store against the version-2 registry maps the v1 → v2
transform over the habits table; a stored habit lacking `interval` comes out
with `interval = "daily"`, its primary key and every field it already had
unchanged (`reminderEnabled`, when present, keeps its value; when absent it is
defaulted, which is not a pre-existing field). -/
theorem openV2_defaults_missing_interval (db : DB) (h : HabitRec)
    (hmem : h ∈ db.habits) (hmiss : h.interval = none) :
    upgradeHabitV2 h ∈ (openV2 db).habits ∧
    (upgradeHabitV2 h).interval = some "daily" ∧
    (upgradeHabitV2 h).id = h.id ∧
    (upgradeHabitV2 h).name = h.name ∧
    (upgradeHabitV2 h).description = h.description ∧
    (upgradeHabitV2 h).image = h.image ∧
    (upgradeHabitV2 h).categoryId = h.categoryId ∧
    (upgradeHabitV2 h).type = h.type ∧
    (upgradeHabitV2 h).options = h.options ∧
    (upgradeHabitV2 h).unit = h.unit ∧
    (upgradeHabitV2 h).target = h.target ∧
    (upgradeHabitV2 h).trackingDay = h.trackingDay ∧
    (upgradeHabitV2 h).trackingDate = h.trackingDate ∧
    (upgradeHabitV2 h).reminderTime = h.reminderTime ∧
    (∀ b, h.reminderEnabled = some b → (upgradeHabitV2 h).reminderEnabled = some b) ∧
    (upgradeHabitV2 h).order = h.order ∧
    (upgradeHabitV2 h).isActive = h.isActive ∧
    (upgradeHabitV2 h).createdAt = h.createdAt := by
  refine ⟨List.mem_map_of_mem upgradeHabitV2 hmem, ?_⟩
  cases hre : h.reminderEnabled <;> simp [upgradeHabitV2, hmiss, hre]

theorem openV2_defaults_missing_interval_witness :
    oldHabit ∈ dbV1.habits ∧ oldHabit.interval = none ∧
    (upgradeHabitV2 oldHabit ∈ (openV2 dbV1).habits ∧
      (upgradeHabitV2 oldHabit).interval = some "daily" ∧
      (upgradeHabitV2 oldHabit).id = oldHabit.id ∧
      (upgradeHabitV2 oldHabit).name = oldHabit.name ∧
      (upgradeHabitV2 oldHabit).description = oldHabit.description ∧
      (upgradeHabitV2 oldHabit).image = oldHabit.image ∧
      (upgradeHabitV2 oldHabit).categoryId = oldHabit.categoryId ∧
      (upgradeHabitV2 oldHabit).type = oldHabit.type ∧
      (upgradeHabitV2 oldHabit).options = oldHabit.options ∧
      (upgradeHabitV2 oldHabit).unit = oldHabit.unit ∧
      (upgradeHabitV2 oldHabit).target = oldHabit.target ∧
      (upgradeHabitV2 oldHabit).trackingDay = oldHabit.trackingDay ∧
      (upgradeHabitV2 oldHabit).trackingDate = oldHabit.trackingDate ∧
      (upgradeHabitV2 oldHabit).reminderTime = oldHabit.reminderTime ∧
      (∀ b, oldHabit.reminderEnabled = some b →
        (upgradeHabitV2 oldHabit).reminderEnabled = some b) ∧
      (upgradeHabitV2 oldHabit).order = oldHabit.order ∧
      (upgradeHabitV2 oldHabit).isActive = oldHabit.isActive ∧
      (upgradeHabitV2 oldHabit).createdAt = oldHabit.createdAt) :=
  ⟨by decide, by decide,
    openV2_defaults_missing_interval dbV1 oldHabit (by decide) (by decide)⟩

theorem genId_ne_shubh (k : Nat) : (genId k == SHUBH_HISAB_ID) = false := by
  rw [beq_eq_false_iff_ne]
  intro h
  have h2 : some 'g' = some 's' := congrArg (fun s => s.data.head?) h
  exact absurd h2 (by decide)

theorem genId_ne_ashubh (k : Nat) : (genId k == ASHUBH_HISAB_ID) = false := by
  rw [beq_eq_false_iff_ne]
  intro h
  have h2 : some 'g' = some 'a' := congrArg (fun s => s.data.head?) h
  exact absurd h2 (by decide)

theorem filter_isFixed_map (f : CategoryRec → CategoryRec)
    (hf : ∀ c, (f c).isFixed = c.isFixed) (l : List CategoryRec) :
    ((l.map f).filter (fun c => c.isFixed)).length
      = (l.filter (fun c => c.isFixed)).length := by
  induction l with
  | nil => rfl
  | cons c cs ih =>
    by_cases hc : c.isFixed <;> simp [List.filter_cons, hf, hc, ih]

theorem fixedCatsOkL_map (f : CategoryRec → CategoryRec)
    (hi : ∀ c, (f c).id = c.id) (hf : ∀ c, (f c).isFixed = c.isFixed)
    (ht : ∀ c, (f c).hisabType = c.hisabType) (l : List CategoryRec) :
    fixedCatsOkL (l.map f) = fixedCatsOkL l := by
  have hsh : ∀ c, isShubhFixed (f c) = isShubhFixed c := fun c => by
    simp [isShubhFixed, hi, hf, ht]
  have hash : ∀ c, isAshubhFixed (f c) = isAshubhFixed c := fun c => by
    simp [isAshubhFixed, hi, hf, ht]
  simp only [fixedCatsOkL, List.any_map, List.all_map, Function.comp_def, hsh, hash,
    hi, hf, ht, filter_isFixed_map f hf l]

theorem fixedCatsOkL_append_user (l : List CategoryRec) (c : CategoryRec)
    (hinv : fixedCatsOkL l = true) (hfix : c.isFixed = false)
    (h1 : (c.id == SHUBH_HISAB_ID) = false) (h2 : (c.id == ASHUBH_HISAB_ID) = false) :
    fixedCatsOkL (l ++ [c]) = true := by
  simp only [fixedCatsOkL, Bool.and_eq_true] at hinv
  obtain ⟨⟨⟨⟨⟨hlen, hany1⟩, hany2⟩, hall1⟩, hall2⟩, hall3⟩ := hinv
  simp only [fixedCatsOkL, Bool.and_eq_true]
  refine ⟨⟨⟨⟨⟨?_, ?_⟩, ?_⟩, ?_⟩, ?_⟩, ?_⟩
  · simpa [List.filter_append, List.filter_cons, hfix] using hlen
  · simp [List.any_append, hany1]
  · simp [List.any_append, hany2]
  · simp only [List.all_append, Bool.and_eq_true]
    exact ⟨hall1, by simp [hfix]⟩
  · simp only [List.all_append, Bool.and_eq_true]
    exact ⟨hall2, by simp [h1]⟩
  · simp only [List.all_append, Bool.and_eq_true]
    exact ⟨hall3, by simp [h2]⟩

theorem fixedCatsOkL_filter_out (l : List CategoryRec) (cid : String)
    (hinv : fixedCatsOkL l = true)
    (hnof : ∀ x ∈ l, (x.id == cid) = true → x.isFixed = false) :
    fixedCatsOkL (l.filter (fun x => !(x.id == cid))) = true := by
  simp only [fixedCatsOkL, Bool.and_eq_true] at hinv
  obtain ⟨⟨⟨⟨⟨hlen, hany1⟩, hany2⟩, hall1⟩, hall2⟩, hall3⟩ := hinv
  have hkeep : ∀ x ∈ l, x.isFixed = true → (!(x.id == cid)) = true := by
    intro x hx hxf
    by_cases hxid : (x.id == cid) = true
    · rw [hnof x hx hxid] at hxf
      cases hxf
    · simp [hxid]
  simp only [fixedCatsOkL, Bool.and_eq_true]
  refine ⟨⟨⟨⟨⟨?_, ?_⟩, ?_⟩, ?_⟩, ?_⟩, ?_⟩
  · rw [List.filter_filter]
    have : l.filter (fun a => a.isFixed && !(a.id == cid)) = l.filter (fun a => a.isFixed) := by
      apply List.filter_congr
      intro a ha
      by_cases haf : a.isFixed = true
      · simp [haf, hkeep a ha haf]
      · simp only [Bool.not_eq_true] at haf
        simp [haf]
    rw [this]
    exact hlen
  · obtain ⟨x, hx, hpx⟩ := List.any_eq_true.mp hany1
    have hxf : x.isFixed = true := by
      simp only [isShubhFixed, Bool.and_eq_true] at hpx
      exact hpx.1.2
    exact List.any_eq_true.mpr ⟨x, List.mem_filter.mpr ⟨hx, hkeep x hx hxf⟩, hpx⟩
  · obtain ⟨x, hx, hpx⟩ := List.any_eq_true.mp hany2
    have hxf : x.isFixed = true := by
      simp only [isAshubhFixed, Bool.and_eq_true] at hpx
      exact hpx.1.2
    exact List.any_eq_true.mpr ⟨x, List.mem_filter.mpr ⟨hx, hkeep x hx hxf⟩, hpx⟩
  · rw [List.all_eq_true] at hall1 ⊢
    intro x hx
    exact hall1 x (List.mem_filter.mp hx).1
  · rw [List.all_eq_true] at hall2 ⊢
    intro x hx
    exact hall2 x (List.mem_filter.mp hx).1
  · rw [List.all_eq_true] at hall3 ⊢
    intro x hx
    exact hall3 x (List.mem_filter.mp hx).1

theorem fixedCatsOk_createCategory (d : CategoryData) (db : DB)
    (hinv : fixedCatsOk db = true) :
    fixedCatsOk (createCategory d db).2 = true := by
  simp only [createCategory, fixedCatsOk]
  exact fixedCatsOkL_append_user db.categories _ hinv rfl
    (genId_ne_shubh db.nextId) (genId_ne_ashubh db.nextId)

theorem fixedCatsOk_updateCategory (cid : String) (p : CategoryPatch) (db : DB)
    (hp0 : p.id = none) (hp1 : p.isFixed = none) (hp2 : p.hisabType = none)
    (hinv : fixedCatsOk db = true) :
    fixedCatsOk (updateCategory cid p db) = true := by
  simp only [updateCategory, fixedCatsOk]
  rw [fixedCatsOkL_map]
  · exact hinv
  · intro c; by_cases hc : c.id == cid <;> simp [hc, applyCatPatch, hp0]
  · intro c; by_cases hc : c.id == cid <;> simp [hc, applyCatPatch, hp1]
  · intro c; by_cases hc : c.id == cid <;> simp [hc, applyCatPatch, hp2]

theorem fixedCatsOk_deleteCategory (cid : String) (db : DB)
    (hinv : fixedCatsOk db = true) :
    fixedCatsOk (deleteCategory cid db).2 = true := by
  have hproceed : ∀ hnof : (∀ x ∈ db.categories, (x.id == cid) = true → x.isFixed = false),
      fixedCatsOk (removeCategory cid (reassignHabits cid db)) = true := by
    intro hnof
    simp only [removeCategory, reassignHabits, fixedCatsOk]
    exact fixedCatsOkL_filter_out db.categories cid hinv hnof
  unfold deleteCategory
  cases hfind : db.categories.find? (fun c => c.id == cid) with
  | none =>
    apply hproceed
    intro x hx hxid
    have := List.find?_eq_none.mp hfind x hx
    simp [hxid] at this
  | some c =>
    have hcmem : c ∈ db.categories := List.mem_of_find?_eq_some hfind
    have hcid : (c.id == cid) = true := by
      have h := List.find?_some hfind
      simpa using h
    by_cases hcf : c.isFixed = true
    · simp [hcf, hinv]
    · simp only [Bool.not_eq_true] at hcf
      simp only [hcf, Bool.false_eq_true, if_false]
      apply hproceed
      intro x hx hxid
      by_contra hxf
      simp only [Bool.not_eq_false] at hxf
      have hinv' := hinv
      simp only [fixedCatsOk, fixedCatsOkL, Bool.and_eq_true] at hinv'
      obtain ⟨⟨⟨⟨⟨_, _⟩, _⟩, hall1⟩, hall2⟩, hall3⟩ := hinv'
      rw [List.all_eq_true] at hall1 hall2 hall3
      have hres := hall1 x hx
      simp only [hxf, Bool.not_true, Bool.false_or, Bool.or_eq_true] at hres
      have hxc : x.id = cid := by simpa using hxid
      have hcc : c.id = cid := by simpa using hcid
      cases hres with
      | inl hsh =>
        have hcsh : (c.id == SHUBH_HISAB_ID) = true := by
          have : x.id = SHUBH_HISAB_ID := by simpa using hsh
          simp [hcc, ← hxc, this]
        have := hall2 c hcmem
        simp only [hcsh, Bool.not_true, Bool.false_or] at this
        simp only [isShubhFixed, Bool.and_eq_true] at this
        rw [this.1.2] at hcf
        cases hcf
      | inr hash =>
        have hcsh : (c.id == ASHUBH_HISAB_ID) = true := by
          have : x.id = ASHUBH_HISAB_ID := by simpa using hash
          simp [hcc, ← hxc, this]
        have := hall3 c hcmem
        simp only [hcsh, Bool.not_true, Bool.false_or] at this
        simp only [isAshubhFixed, Bool.and_eq_true] at this
        rw [this.1.2] at hcf
        cases hcf

theorem fixedCatsOkL_setCatOrder (cid : String) (ord : Nat) (l : List CategoryRec)
    (hinv : fixedCatsOkL l = true) : fixedCatsOkL (setCatOrder cid ord l) = true := by
  simp only [setCatOrder]
  rw [fixedCatsOkL_map]
  · exact hinv
  · intro c; by_cases hc : c.id == cid <;> simp [hc]
  · intro c; by_cases hc : c.id == cid <;> simp [hc]
  · intro c; by_cases hc : c.id == cid <;> simp [hc]

theorem fixedCatsOkL_foldl_setOrder (ps : List (Nat × String)) :
    ∀ l : List CategoryRec, fixedCatsOkL l = true →
      fixedCatsOkL (ps.foldl (fun acc p => setCatOrder p.2 p.1 acc) l) = true := by
  induction ps with
  | nil => intro l hinv; exact hinv
  | cons p ps ih =>
    intro l hinv
    simp only [List.foldl_cons]
    exact ih _ (fixedCatsOkL_setCatOrder p.2 p.1 l hinv)

theorem fixedCatsOk_reorderCategories (ids : List String) (db : DB)
    (hinv : fixedCatsOk db = true) :
    fixedCatsOk (reorderCategories ids db) = true := by
  simp only [reorderCategories, fixedCatsOk]
  exact fixedCatsOkL_foldl_setOrder ids.enum db.categories hinv

theorem fixedCatsOk_applyCatOp (op : CatOp) (db : DB)
    (hop : catOpSafe op = true) (hinv : fixedCatsOk db = true) :
    fixedCatsOk (applyCatOp op db) = true := by
  cases op with
  | create d => exact fixedCatsOk_createCategory d db hinv
  | update cid p =>
    simp only [catOpSafe, Bool.and_eq_true, beq_iff_eq] at hop
    exact fixedCatsOk_updateCategory cid p db hop.1.1 hop.1.2 hop.2 hinv
  | delete cid => exact fixedCatsOk_deleteCategory cid db hinv
  | reorder ids => exact fixedCatsOk_reorderCategories ids db hinv

theorem fixedCatsOk_applyCatOps (ops : List CatOp) :
    ∀ db : DB, ops.all catOpSafe = true → fixedCatsOk db = true →
      fixedCatsOk (applyCatOps ops db) = true := by
  induction ops with
  | nil => intro db _ hinv; exact hinv
  | cons op ops ih =>
    intro db hops hinv
    simp only [List.all_cons, Bool.and_eq_true] at hops
    simp only [applyCatOps, List.foldl_cons]
    exact ih (applyCatOp op db) hops.2 (fixedCatsOk_applyCatOp op db hops.1 hinv)

theorem seed_idempotent (db : DB) (hinv : fixedCatsOk db = true) :
    seedDefaultCategories db = db := by
  simp only [fixedCatsOk, fixedCatsOkL, Bool.and_eq_true] at hinv
  obtain ⟨⟨⟨⟨⟨_, hany1⟩, hany2⟩, _⟩, _⟩, _⟩ := hinv
  have h1 : (db.categories.find? (fun c => c.id == SHUBH_HISAB_ID)).isSome = true := by
    rw [List.find?_isSome]
    obtain ⟨x, hx, hpx⟩ := List.any_eq_true.mp hany1
    simp only [isShubhFixed, Bool.and_eq_true] at hpx
    exact ⟨x, hx, hpx.1.1⟩
  have h2 : (db.categories.find? (fun c => c.id == ASHUBH_HISAB_ID)).isSome = true := by
    rw [List.find?_isSome]
    obtain ⟨x, hx, hpx⟩ := List.any_eq_true.mp hany2
    simp only [isAshubhFixed, Bool.and_eq_true] at hpx
    exact ⟨x, hx, hpx.1.1⟩
  simp [seedDefaultCategories, h1, h2]

/-- C6 (amended): starting from any store satisfying the fixed-category
invariant (which seeding a fresh store establishes), any sequence of
`createCategory` / `deleteCategory` / `reorderCategories` calls, and of
`updateCategory` calls whose patch touches none of `id`, `isFixed`,
`hisabType`, preserves it: exactly two categories have `isFixed = true`, they
carry the compile-time reserved identifiers `shubh-hisab` and `ashubh-hisab`
with group tags `shubh` and `ashubh` respectively; and seeding is idempotent —
running `seedDefaultCategories` when both exist changes nothing.  (The
restriction on `updateCategory` is forced: the source forwards an arbitrary
`Partial<Category>` patch, so a patch may clear `isFixed` or move a fixed
record off its reserved primary key, see the counterexample.) -/
theorem fixed_categories_invariant (ops : List CatOp) (db : DB)
    (hinv : fixedCatsOk db = true) (hops : ops.all catOpSafe = true) :
    fixedCatsOk (applyCatOps ops db) = true ∧ seedDefaultCategories db = db :=
  ⟨fixedCatsOk_applyCatOps ops db hops hinv, seed_idempotent db hinv⟩

theorem fixed_categories_invariant_witness :
    fixedCatsOk seededDB = true ∧ sampleCatOps.all catOpSafe = true ∧
    (fixedCatsOk (applyCatOps sampleCatOps seededDB) = true ∧
      seedDefaultCategories seededDB = seededDB) :=
  ⟨by decide, by decide,
    fixed_categories_invariant sampleCatOps seededDB (by decide) (by decide)⟩

/-- C6 counterexample to the claim as stated: after seeding, the category
operation `updateCategory('shubh-hisab', { isFixed: false })` — a legal
`Partial<Category>` patch the source accepts — leaves the store with only one
fixed category; and `updateCategory('shubh-hisab', { id: 'x' })`, which
touches neither `isFixed` nor `hisabType`, moves the Shubh record off its
reserved primary key, leaving no category with the identifier `shubh-hisab`.
So it is not the case that *any* sequence of category operations preserves the
fixed-category invariant. -/
theorem fixed_categories_invariant_cex :
    fixedCatsOk seededDB = true ∧
    fixedCatsOk (applyCatOps [.update SHUBH_HISAB_ID { isFixed := some false }] seededDB)
      = false ∧
    ((applyCatOps [.update SHUBH_HISAB_ID { isFixed := some false }] seededDB).categories.filter
      (fun c => c.isFixed)).length = 1 ∧
    fixedCatsOk (applyCatOps [.update SHUBH_HISAB_ID { id := some "x" }] seededDB) = false ∧
    (applyCatOps [.update SHUBH_HISAB_ID { id := some "x" }] seededDB).categories.all
      (fun c => !(c.id == SHUBH_HISAB_ID)) = true := by
  decide

/-- C5 (amended): if the looked-up category is fixed, `deleteCategory` throws
`FixedCategoryProtected` and the store is unchanged; otherwise it reassigns
every habit whose `categoryId` equals the deleted id to the positive-group
fixed category `shubh-hisab` and then deletes the category, leaving the other
tables untouched — but the two writes run as two separate implicit
transactions (the source does not wrap them in `db.transaction`), so the
committed intermediate state with habits already reassigned and the category
still present is observable between them. -/
theorem deleteCategory_spec (db : DB) (cid : String) :
    (∀ c, db.categories.find? (fun x => x.id == cid) = some c → c.isFixed = true →
      deleteCategory cid db = (some DbError.fixedCategoryProtected, db)) ∧
    ((∀ c, db.categories.find? (fun x => x.id == cid) = some c → c.isFixed = false) →
      (deleteCategory cid db).1 = none ∧
      (deleteCategory cid db).2.habits = db.habits.map (fun h =>
          if h.categoryId == cid then { h with categoryId := SHUBH_HISAB_ID } else h) ∧
      (deleteCategory cid db).2.categories = db.categories.filter (fun c => !(c.id == cid)) ∧
      (deleteCategory cid db).2.logEntries = db.logEntries ∧
      (deleteCategory cid db).2.settings = db.settings ∧
      deleteCategoryStates cid db = [reassignHabits cid db, (deleteCategory cid db).2]) := by
  constructor
  · intro c hc hf
    simp [deleteCategory, hc, hf]
  · intro hnf
    cases hfind : db.categories.find? (fun x => x.id == cid) with
    | none =>
      simp [deleteCategory, deleteCategoryStates, hfind, reassignHabits, removeCategory]
    | some c =>
      have hcf := hnf c hfind
      simp [deleteCategory, deleteCategoryStates, hfind, hcf, reassignHabits, removeCategory]

theorem deleteCategory_spec_witness :
    (∀ c, dbWithUserCat.categories.find? (fun x => x.id == "cat-1") = some c →
      c.isFixed = false) ∧
    ((deleteCategory "cat-1" dbWithUserCat).1 = none ∧
      (deleteCategory "cat-1" dbWithUserCat).2.habits = dbWithUserCat.habits.map (fun h =>
          if h.categoryId == "cat-1" then { h with categoryId := SHUBH_HISAB_ID } else h) ∧
      (deleteCategory "cat-1" dbWithUserCat).2.categories
        = dbWithUserCat.categories.filter (fun c => !(c.id == "cat-1")) ∧
      (deleteCategory "cat-1" dbWithUserCat).2.logEntries = dbWithUserCat.logEntries ∧
      (deleteCategory "cat-1" dbWithUserCat).2.settings = dbWithUserCat.settings ∧
      deleteCategoryStates "cat-1" dbWithUserCat
        = [reassignHabits "cat-1" dbWithUserCat, (deleteCategory "cat-1" dbWithUserCat).2]) :=
  ⟨by decide, (deleteCategory_spec dbWithUserCat "cat-1").2 (by decide)⟩

/-- C5 counterexample to "both inside one transaction so no intermediate state
is observable": deleting the non-fixed category `cat-1` from a store where it
owns one habit commits an observable intermediate state (the first committed
state of the two-write sequence) in which the habit is already reassigned to
`shubh-hisab` while `cat-1` is still present — a state equal to neither the
initial nor the final store. -/
theorem deleteCategory_not_atomic_cex :
    (deleteCategoryStates "cat-1" dbWithUserCat).head?
      = some (reassignHabits "cat-1" dbWithUserCat) ∧
    (reassignHabits "cat-1" dbWithUserCat).categories.any (fun c => c.id == "cat-1") = true ∧
    (reassignHabits "cat-1" dbWithUserCat).habits.all
      (fun h => h.categoryId == SHUBH_HISAB_ID) = true ∧
    reassignHabits "cat-1" dbWithUserCat ≠ dbWithUserCat ∧
    reassignHabits "cat-1" dbWithUserCat ≠ (deleteCategory "cat-1" dbWithUserCat).2 := by
  decide

/-- C3 (code bug): `createHabit` is specified to assign one greater than the
maximum `order` among active habits of the category, but the source computes
it from `where('categoryId').equals(c).filter(isActive).last()`, which
traverses the `categoryId` index — equal keys ordered by primary key — so it
takes the order of the habit with the greatest id, not the greatest order.
In the reachable store `dbReordered` (two habits whose display order was
swapped by `reorderHabits`), the maximum active order in `shubh-hisab` is 1,
so the spec demands order 2; the code gives the new habit `gen-2` order 1,
duplicating the order of `gen-0`. -/
theorem createHabit_order_bug :
    specMaxActiveOrder dbReordered SHUBH_HISAB_ID = some 1 ∧
    (createHabit habitDataA dbReordered).1 = "gen-2" ∧
    ((createHabit habitDataA dbReordered).2.habits.map (fun h => (h.id, h.order)))
      = [("gen-0", 1), ("gen-1", 0), ("gen-2", 1)] ∧
    ((createHabit habitDataA dbReordered).2.habits.filter
      (fun h => h.isActive && h.categoryId == SHUBH_HISAB_ID && h.order == 1)).length = 2 := by
  decide

/-- C2 (code bug): importing a snapshot whose `schemaVersion` (1) is older
than the store's current version (2) loads the records untransformed: Dexie's
`version(2).upgrade` callback runs only when opening a store persisted at a
lower version, never during `bulkPut`, even though `importAllData` logs that
the data "will be migrated automatically during import".  After importing
`snapV1`, the habit `old-1` still has no `interval`, while the registry's v2
transform would have defaulted it to `"daily"`. -/
theorem importAllData_no_migration_bug :
    snapV1.schemaVersion = some 1 ∧ CURRENT_DB_VERSION = 2 ∧
    (importSnapshotChecked snapV1 seededDB).1 = none ∧
    ((importSnapshotChecked snapV1 seededDB).2.habits.find? (fun h => h.id == "old-1")).map
      (fun h => h.interval) = some none ∧
    (upgradeHabitV2 oldHabit).interval = some "daily" := by
  decide

/-- C8 (code bug): `importAllData(exportAllData())` does not leave records
unmutated.  After the transaction clears the tables, every `bulkPut` record is
a creation, so the `creating` hooks re-stamp `createdAt` (categories, habits)
and both timestamps (log entries) with the import-time clock.  Round-tripping
`dbRound` (log entry created at clock 0, import at clock 5) yields the same
ids but `createdAt = updatedAt = 5`, so the store differs from its
pre-round-trip state. -/
theorem snapshot_roundtrip_mutates_bug :
    (importSnapshotChecked (exportAllData dbRound) dbRound).1 = none ∧
    entryClockZero.createdAt = 0 ∧
    ((importSnapshotChecked (exportAllData dbRound) dbRound).2.logEntries.map
      (fun e => (e.id, e.createdAt, e.updatedAt))) = [("gen-0", 5, 5)] ∧
    ((importSnapshotChecked (exportAllData dbRound) dbRound).2.categories.map
      (fun c => (c.id, c.createdAt)))
      = [(SHUBH_HISAB_ID, 5), (ASHUBH_HISAB_ID, 5)] ∧
    (importSnapshotChecked (exportAllData dbRound) dbRound).2 ≠ dbRound := by
  decide

/-- C4 (amended): every snapshot failing the import-flow validation — missing
or empty `version`, missing `categories`, or missing `habits` — is rejected
with `TransferFormatInvalid` before the import transaction starts, so no table
is cleared and the store is returned unchanged. -/
theorem import_validation_rejects (data : ExportData) (db : DB)
    (hbad : checkImportFile data = false) :
    importSnapshotChecked data db = (some DbError.transferFormatInvalid, db) := by
  simp [importSnapshotChecked, hbad]

theorem import_validation_rejects_witness :
    checkImportFile snapNoCategories = false ∧
    importSnapshotChecked snapNoCategories dbRound
      = (some DbError.transferFormatInvalid, dbRound) :=
  ⟨by decide, import_validation_rejects snapNoCategories dbRound (by decide)⟩

/-- C4 counterexample to the claim as stated: `exportedAt` is a required
top-level field of the transfer format, yet a snapshot missing it passes the
validation (which only checks `version`, `categories`, `habits`) and is
imported: the import reports no error and the store's log table is replaced
(the pre-import entry is gone), so the import neither failed nor left existing
records unchanged. -/
theorem import_validation_gap_cex :
    snapNoExportedAt.exportedAt = none ∧
    (importSnapshotChecked snapNoExportedAt dbRound).1 = none ∧
    (importSnapshotChecked snapNoExportedAt dbRound).2.logEntries = [] ∧
    dbRound.logEntries ≠ [] := by
  decide
